import Mathlib

/-!
# Verification of the influxdb-cxx HTTP transport (src/HTTP.cxx)

A shallow embedding of the HTTP transport layer of the influxdb-cxx client.
C++ strings are modelled as `List Char`; C++ exceptions are modelled with an
explicit `Result` type (`InfluxDBException` carries its message, and the
`std::out_of_range` that `std::string::at` can raise is a separate error).
The external HTTP client (cpr) is modelled as an oracle mapping the request
that a `cpr::Session` would issue to a `cpr::Response`; the session itself is
a record of the mutable settings (`SetUrl`/`SetHeader`/`SetParameters`/
`SetBody`/auth/proxy/timeouts) that the transport configures.
-/

/-- C++ `std::string`, modelled as a list of characters. -/
abbrev Str := List Char

/-- Conversion from a Lean string literal to the `Str` model. -/
def str (s : String) : Str := s.toList

/-- The exceptions thrown by the transport: `InfluxDBException` with its
message, and `std::out_of_range` from `std::string::at`. -/
inductive Err where
  | influxDB (msg : Str) : Err
  | outOfRange : Err
deriving DecidableEq, Repr

/-- Outcome of C++ code that may throw: either a value or an exception. -/
inductive Result (α : Type) where
  | ok (val : α) : Result α
  | err (e : Err) : Result α
deriving DecidableEq, Repr

/-- `std::string::find(char)`: index of the first occurrence, if any. -/
def strFindChar (c : Char) : Str → Option Nat
  | [] => none
  | a :: as => if a = c then some 0 else (strFindChar c as).map (· + 1)

/-- Whether `pat` occurs at the very start of `s` (substring match at one
position, as `std::string::find` tests at each candidate index). -/
def matchesAt : Str → Str → Bool
  | [], _ => true
  | _ :: _, [] => false
  | p :: ps, a :: as => p = a && matchesAt ps as

/-- `std::string::find(pattern)`: index of the first occurrence of the
substring `pat`, if any. -/
def strFindSub (pat : Str) : Str → Option Nat
  | [] => if matchesAt pat [] then some 0 else none
  | a :: as => if matchesAt pat (a :: as) then some 0 else (strFindSub pat as).map (· + 1)

/-- `parseUrl` (src/HTTP.cxx:53-66): everything before the first `?`, with a
single `/` immediately before the `?` stripped.  When the first `?` is at
index 0, the C++ code evaluates `url.at(0 - 1)` on a `size_t`, which wraps
around and makes `at` throw `std::out_of_range`. -/
def parseUrl (url : Str) : Result Str :=
  match strFindChar '?' url with
  | none => .ok url
  | some q =>
    if q = 0 then .err .outOfRange
    else if url.get? (q - 1) = some '/' then .ok (url.take (q - 1))
    else .ok (url.take q)

/-- The query marker searched for by `parseDatabaseName`. -/
def dbMarker : Str := str "?db="

/-- `parseDatabaseName` (src/HTTP.cxx:68-77): everything after the first
`?db=`; throws `InfluxDBException("No Database specified")` if absent. -/
def parseDatabaseName (url : Str) : Result Str :=
  match strFindSub dbMarker url with
  | none => .err (.influxDB (str "No Database specified"))
  | some p => .ok (url.drop (p + 4))

/-- The endpoint configuration held by a constructed transport. -/
structure EndpointConfig where
  baseUrl : Str
  database : Str
deriving DecidableEq, Repr

/-- The member-initializer list of `HTTP::HTTP(const std::string&)`
(src/HTTP.cxx:82-83): `endpointUrl(parseUrl(url)), databaseName(parseDatabaseName(url))`,
evaluated in that order; the first exception propagates. -/
def parseEndpoint (url : Str) : Result EndpointConfig :=
  match parseUrl url with
  | .err e => .err e
  | .ok b =>
    match parseDatabaseName url with
    | .err e => .err e
    | .ok d => .ok { baseUrl := b, database := d }

/-- `cpr::Response`: transport-error indicator with code and message, HTTP
status code, reason phrase and body text. -/
structure Response where
  hasError : Bool
  errorCode : Int
  errorMessage : Str
  status_code : Int
  reason : Str
  text : Str
deriving DecidableEq, Repr

/-- `cpr::status::is_success`: 2xx status codes. -/
def is_success (code : Int) : Bool := 200 ≤ code && code < 300

/-- `std::to_string` on an integer. -/
def intToStr (i : Int) : Str := str (toString i)

/-- The message built at src/HTTP.cxx:45 for a transport-level error:
`"Request error: (" + to_string(code) + ") " + message`. -/
def requestErrMsg (resp : Response) : Str :=
  str "Request error: (" ++ intToStr resp.errorCode ++ str ") " ++ resp.errorMessage

/-- The message built at src/HTTP.cxx:49 for a non-2xx response:
`"Request failed: (" + to_string(status_code) + ") " + reason`; it embeds
the numeric status code and the reason text. -/
def requestFailedMsg (resp : Response) : Str :=
  str "Request failed: (" ++ intToStr resp.status_code ++ str ") " ++ resp.reason

/-- `checkResponse` (src/HTTP.cxx:40-51): a transport-level error throws
`InfluxDBException("Request error: (code) message")`; a non-2xx status throws
`InfluxDBException("Request failed: (status) reason")`; otherwise returns. -/
def checkResponse (resp : Response) : Result Unit :=
  if resp.hasError then .err (.influxDB (requestErrMsg resp))
  else if !(is_success resp.status_code) then .err (.influxDB (requestFailedMsg resp))
  else .ok ()

/-- The mutable settings of the shared `cpr::Session`. -/
structure Session where
  url : Str
  headers : List (Str × Str)
  params : List (Str × Str)
  body : Str
  auth : Option (Str × Str)
  proxies : List (Str × Str)
  proxyAuth : List (Str × (Str × Str))
  timeoutSec : Nat
  connectTimeoutSec : Nat
  verifySsl : Bool
deriving DecidableEq, Repr

/-- The session as configured by `HTTP::HTTP(const std::string&)`
(src/HTTP.cxx:85-88): fresh session, 10 s timeout, 10 s connect timeout,
TLS verification disabled. -/
def initSession : Session :=
  { url := [], headers := [], params := [], body := [],
    auth := none, proxies := [], proxyAuth := [],
    timeoutSec := 10, connectTimeoutSec := 10, verifySsl := false }

/-- HTTP method of an issued request. -/
inductive Method where
  | get : Method
  | post : Method
deriving DecidableEq, Repr

/-- The request a `session->Get()` / `session->Post()` call issues: a
snapshot of the session's url, headers, parameters and body. -/
structure Request where
  method : Method
  url : Str
  headers : List (Str × Str)
  params : List (Str × Str)
  body : Str
deriving DecidableEq, Repr

/-- Build the wire request from the current session settings. -/
def Session.toRequest (s : Session) (m : Method) : Request :=
  { method := m, url := s.url, headers := s.headers, params := s.params, body := s.body }

/-- The external HTTP client: an oracle from issued request to response. -/
abbrev Client := Request → Response

/-- The state of a constructed `HTTP` transport: parsed endpoint plus the
shared session. -/
structure HTTPState where
  endpointUrl : Str
  databaseName : Str
  session : Session
deriving DecidableEq, Repr

/-- `HTTP::HTTP(const std::string&)` (src/HTTP.cxx:82-89): parse the
connection string (either member initializer may throw), then create and
configure the session. -/
def constructHTTP (url : Str) : Result HTTPState :=
  match parseEndpoint url with
  | .err e => .err e
  | .ok cfg => .ok { endpointUrl := cfg.baseUrl, databaseName := cfg.database, session := initSession }

/-- Session mutations performed by `HTTP::query` (src/HTTP.cxx:109-110):
`SetUrl(endpointUrl + "/query")`, `SetParameters({db, q})`. -/
def querySession (st : HTTPState) (q : Str) : Session :=
  { st.session with
    url := st.endpointUrl ++ str "/query",
    params := [(str "db", st.databaseName), (str "q", q)] }

/-- `HTTP::query` (src/HTTP.cxx:107-116): configure the session, GET, check
the response, return its text. -/
def query (st : HTTPState) (client : Client) (q : Str) :
    Result Str × HTTPState × List Request :=
  let s := querySession st q
  let req := Session.toRequest s .get
  let resp := client req
  (match checkResponse resp with
   | .ok _ => .ok resp.text
   | .err e => .err e,
   { st with session := s }, [req])

/-- Session mutations performed by `HTTP::execute` (src/HTTP.cxx:186-187),
textually identical to those of `query`. -/
def executeSession (st : HTTPState) (cmd : Str) : Session :=
  { st.session with
    url := st.endpointUrl ++ str "/query",
    params := [(str "db", st.databaseName), (str "q", cmd)] }

/-- `HTTP::execute` (src/HTTP.cxx:184-193). -/
def executeCmd (st : HTTPState) (client : Client) (cmd : Str) :
    Result Str × HTTPState × List Request :=
  let s := executeSession st cmd
  let req := Session.toRequest s .get
  let resp := client req
  (match checkResponse resp with
   | .ok _ => .ok resp.text
   | .err e => .err e,
   { st with session := s }, [req])

/-- Session mutations performed by `HTTP::send` (src/HTTP.cxx:125-128):
`SetUrl(endpointUrl + "/write")`, `SetHeader(Content-Type)`,
`SetParameters({db})`, `SetBody(lineprotocol)`. -/
def sendSession (st : HTTPState) (lineprotocol : Str) : Session :=
  { st.session with
    url := st.endpointUrl ++ str "/write",
    headers := [(str "Content-Type", str "application/json")],
    params := [(str "db", st.databaseName)],
    body := lineprotocol }

/-- `HTTP::send` (src/HTTP.cxx:123-132): configure the session, POST, check
the response. -/
def send (st : HTTPState) (client : Client) (lineprotocol : Str) :
    Result Unit × HTTPState × List Request :=
  let s := sendSession st lineprotocol
  let req := Session.toRequest s .post
  let resp := client req
  (checkResponse resp, { st with session := s }, [req])

/-- Session mutations performed by `HTTP::sendAsync` (src/HTTP.cxx:136-139),
textually identical to those of `send`. -/
def sendAsyncSession (st : HTTPState) (lineprotocol : Str) : Session :=
  { st.session with
    url := st.endpointUrl ++ str "/write",
    headers := [(str "Content-Type", str "application/json")],
    params := [(str "db", st.databaseName)],
    body := lineprotocol }

/-- Session mutations performed by `HTTP::createDatabase`
(src/HTTP.cxx:197-198): `SetUrl(endpointUrl + "/query")`,
`SetParameters({q, "CREATE DATABASE " + databaseName})`. -/
def createDatabaseSession (st : HTTPState) : Session :=
  { st.session with
    url := st.endpointUrl ++ str "/query",
    params := [(str "q", str "CREATE DATABASE " ++ st.databaseName)] }

/-- `HTTP::createDatabase` (src/HTTP.cxx:195-202). -/
def createDatabase (st : HTTPState) (client : Client) :
    Result Unit × HTTPState × List Request :=
  let s := createDatabaseSession st
  let req := Session.toRequest s .post
  let resp := client req
  (checkResponse resp, { st with session := s }, [req])

/-- `HTTP::setBasicAuthentication` (src/HTTP.cxx:118-121). -/
def setBasicAuthentication (st : HTTPState) (user pass : Str) : HTTPState :=
  { st with session := { st.session with auth := some (user, pass) } }

/-- The `Proxy` argument of `HTTP::setProxy`: proxy URL plus optional
`{user, password}` authentication. -/
structure Proxy where
  proxyUrl : Str
  auth : Option (Str × Str)
deriving DecidableEq, Repr

/-- `HTTP::setProxy` (src/HTTP.cxx:173-182): set both proxy slots, and both
proxy-auth slots when authentication is configured. -/
def setProxy (st : HTTPState) (p : Proxy) : HTTPState :=
  let s1 := { st.session with proxies := [(str "http", p.proxyUrl), (str "https", p.proxyUrl)] }
  let s2 :=
    match p.auth with
    | some a => { s1 with proxyAuth := [(str "http", a), (str "https", a)] }
    | none => s1
  { st with session := s2 }

/-- The timeout/TLS configuration of a session, fixed at construction. -/
def sessionCfg (s : Session) : Nat × Nat × Bool :=
  (s.timeoutSec, s.connectTimeoutSec, s.verifySsl)

/-- A `cpr::AsyncWrapper` held in `respQueue`, identified by its submission;
the network's behaviour for it is an oracle `PendingWrite → Response`. -/
abbrev PendingWrite := Nat

/-- `respQueue.push_back` in `HTTP::sendAsync` (src/HTTP.cxx:144): append at
the tail (under `asyncMtx`). -/
def pushWrite (q : List PendingWrite) (w : PendingWrite) : List PendingWrite := q ++ [w]

/-- The inner `while (respQueue.size() > 0)` loop of
`HTTP::handleAsyncResult` (src/HTTP.cxx:154-167), recording for each
dequeued front element the outcome `checkResponse` classified: wait on the
front, classify it, pop it, continue. -/
def drainAll (result : PendingWrite → Response) :
    List PendingWrite → List (PendingWrite × Result Unit)
  | [] => []
  | w :: rest => (w, checkResponse (result w)) :: drainAll result rest

/-- The `try { ... } catch (const InfluxDBException&)` in
`HTTP::handleAsyncResult` (src/HTTP.cxx:157-164): an `InfluxDBException` is
swallowed; any other exception would escape. -/
def catchInflux (x : Result Unit) : Result Unit :=
  match x with
  | .err (.influxDB _) => .ok ()
  | other => other

/-- The inner drain loop of `HTTP::handleAsyncResult` with its exception
semantics made explicit: each front element is waited on, classified, the
failure is caught (only `InfluxDBException`), and the element is popped; the
returned list records every resolved element in order.  An uncaught
exception would abort the loop as `.err`. -/
def handleAsyncBatch (result : PendingWrite → Response) :
    List PendingWrite → Result (List (PendingWrite × Result Unit))
  | [] => .ok []
  | w :: rest =>
    let outcome := checkResponse (result w)
    match catchInflux outcome with
    | .err e => .err e
    | .ok _ =>
      match handleAsyncBatch result rest with
      | .err e => .err e
      | .ok tail => .ok ((w, outcome) :: tail)

/-- Serialized events on the `asyncMtx`-protected queue: a caller's
`sendAsync` append, or one wake-up of the reaper's drain loop. -/
inductive AsyncEvent where
  | submit (w : PendingWrite) : AsyncEvent
  | reap : AsyncEvent
deriving DecidableEq, Repr

/-- Queue plus the reaper's resolution log. -/
structure AsyncState where
  queue : List PendingWrite
  resolved : List (PendingWrite × Result Unit)
deriving DecidableEq, Repr

/-- One serialized event: `sendAsync` appends at the tail
(src/HTTP.cxx:141-144); a reaper wake-up drains the whole visible queue from
the front (src/HTTP.cxx:153-167). -/
def stepEvent (result : PendingWrite → Response) (st : AsyncState) :
    AsyncEvent → AsyncState
  | .submit w => { st with queue := pushWrite st.queue w }
  | .reap => { queue := [], resolved := st.resolved ++ drainAll result st.queue }

/-- Run a serialized event history. -/
def runEvents (result : PendingWrite → Response) (st : AsyncState) :
    List AsyncEvent → AsyncState
  | [] => st
  | e :: es => runEvents result (stepEvent result st e) es

/-- The writes submitted by a history, in submission order. -/
def submittedOf : List AsyncEvent → List PendingWrite
  | [] => []
  | AsyncEvent.submit w :: es => w :: submittedOf es
  | AsyncEvent.reap :: es => submittedOf es

/-- The result-handler `std::thread` member: whether it was ever started,
and whether it has been joined. -/
structure ThreadState where
  started : Bool
  joined : Bool
deriving DecidableEq, Repr

/-- Lifecycle-relevant state of an `HTTP` object built with the two-argument
constructor: the `processAsync` flag and the handler thread. -/
structure Lifecycle where
  processAsync : Bool
  handlerThread : ThreadState
deriving DecidableEq, Repr

/-- `HTTP::HTTP(const std::string&, bool)` (src/HTTP.cxx:91-96): store
`enableAsync` into `processAsync`, then start the result-handler thread
unconditionally. -/
def constructWithAsyncFlag (enableAsync : Bool) : Lifecycle :=
  { processAsync := enableAsync, handlerThread := { started := true, joined := false } }

/-- `HTTP::~HTTP` (src/HTTP.cxx:98-105): join the handler thread only when
`processAsync` is set.  The second component records whether the
`std::thread` member is destroyed while still joinable, which calls
`std::terminate`. -/
def destructHTTP (l : Lifecycle) : Lifecycle × Bool :=
  let l2 :=
    if l.processAsync then
      { processAsync := false, handlerThread := { l.handlerThread with joined := true } }
    else l
  (l2, l2.handlerThread.started && !l2.handlerThread.joined)

/-- A concrete transport state used in witness instantiations. -/
def st0 : HTTPState :=
  { endpointUrl := str "http://h", databaseName := str "d", session := initSession }

/-- A concrete 204 No Content response. -/
def resp204 : Response :=
  { hasError := false, errorCode := 0, errorMessage := [],
    status_code := 204, reason := str "No Content", text := [] }

/-- A concrete 500 Internal Server Error response. -/
def resp500 : Response :=
  { hasError := false, errorCode := 0, errorMessage := [],
    status_code := 500, reason := str "Internal Server Error", text := [] }

/-! ## Helper lemmas about the string-search and list operations -/

theorem strFindChar_eq_none_iff (c : Char) (l : Str) :
    strFindChar c l = none ↔ c ∉ l := by
  induction l with
  | nil => simp [strFindChar]
  | cons a as ih =>
    by_cases h : a = c
    · subst h
      simp [strFindChar]
    · simp only [strFindChar, if_neg h, Option.map_eq_none', ih, List.mem_cons, not_or]
      constructor
      · intro hn
        exact ⟨fun hc => h hc.symm, hn⟩
      · intro hn
        exact hn.2

theorem strFindChar_append_cons (c : Char) (pre rest : Str) (h : c ∉ pre) :
    strFindChar c (pre ++ c :: rest) = some pre.length := by
  induction pre with
  | nil => simp [strFindChar]
  | cons a t ih =>
    have ha : ¬(a = c) := fun hac => h (hac ▸ List.mem_cons_self a t)
    have ht : c ∉ t := fun hct => h (List.mem_cons_of_mem a hct)
    simp [strFindChar, ha, ih ht]

theorem not_mem_take_of_strFindChar (c : Char) (l : Str) (q m : Nat)
    (hf : strFindChar c l = some q) (hm : m ≤ q) : c ∉ l.take m := by
  induction l generalizing q m with
  | nil => simp
  | cons a as ih =>
    by_cases ha : a = c
    · subst ha
      simp [strFindChar] at hf
      subst hf
      interval_cases m
      simp
    · simp [strFindChar, ha, Option.map_eq_some'] at hf
      obtain ⟨q', hq', rfl⟩ := hf
      cases m with
      | zero => simp
      | succ m' =>
        simp only [List.take_succ_cons, List.mem_cons]
        rintro (rfl | hmem)
        · exact ha rfl
        · exact ih q' m' hq' (Nat.le_of_succ_le_succ hm) hmem

theorem strFindChar_zero_head (c : Char) (l : Str) (h : strFindChar c l = some 0) :
    l.head? = some c := by
  cases l with
  | nil => simp [strFindChar] at h
  | cons a as =>
    by_cases ha : a = c
    · simp [ha]
    · simp [strFindChar, ha, Option.map_eq_some'] at h

theorem matchesAt_self_append (pat rest : Str) : matchesAt pat (pat ++ rest) = true := by
  induction pat with
  | nil => simp [matchesAt]
  | cons p ps ih => simp [matchesAt, ih]

theorem strFindSub_append_cons (c : Char) (ps pre rest : Str) (h : c ∉ pre) :
    strFindSub (c :: ps) (pre ++ (c :: ps) ++ rest) = some pre.length := by
  induction pre with
  | nil =>
    have hm : matchesAt (c :: ps) (c :: (ps ++ rest)) = true := matchesAt_self_append (c :: ps) rest
    simp [strFindSub, hm]
  | cons a t ih =>
    have ha : ¬(c = a) := fun hac => h (hac ▸ List.mem_cons_self a t)
    have ht : c ∉ t := fun hct => h (List.mem_cons_of_mem a hct)
    have step : strFindSub (c :: ps) ((a :: t) ++ (c :: ps) ++ rest)
        = (strFindSub (c :: ps) (t ++ (c :: ps) ++ rest)).map (· + 1) := by
      have hm : matchesAt (c :: ps) (a :: (t ++ c :: (ps ++ rest))) = false := by
        simp [matchesAt, ha]
      simp [strFindSub, hm]
    rw [step, ih ht]
    simp

theorem mem_of_strFindSub (c : Char) (ps l : Str) (p : Nat)
    (h : strFindSub (c :: ps) l = some p) : c ∈ l := by
  induction l generalizing p with
  | nil => simp [strFindSub, matchesAt] at h
  | cons a as ih =>
    by_cases hm : matchesAt (c :: ps) (a :: as) = true
    · have : c = a := by
        simp [matchesAt, Bool.and_eq_true] at hm
        exact hm.1
      simp [this]
    · simp [strFindSub, hm, Option.map_eq_some'] at h
      obtain ⟨p', hp', rfl⟩ := h
      exact List.mem_cons_of_mem a (ih p' hp')

theorem take_append_of_le (l₁ l₂ : Str) (n : Nat) (h : n ≤ l₁.length) :
    (l₁ ++ l₂).take n = l₁.take n := by
  induction l₁ generalizing n with
  | nil =>
    have hn : n = 0 := Nat.le_zero.mp (by simpa using h)
    subst hn
    simp
  | cons a t ih =>
    cases n with
    | zero => simp
    | succ n' => simp [ih n' (Nat.le_of_succ_le_succ h)]

theorem take_length_append (l₁ l₂ : Str) : (l₁ ++ l₂).take l₁.length = l₁ := by
  induction l₁ with
  | nil => simp
  | cons a t ih => simp [ih]

theorem drop_length_append (l₁ l₂ : Str) : (l₁ ++ l₂).drop l₁.length = l₂ := by
  induction l₁ with
  | nil => simp
  | cons a t ih => simp [ih]

theorem get?_append_of_lt (l₁ l₂ : Str) (n : Nat) (h : n < l₁.length) :
    (l₁ ++ l₂).get? n = l₁.get? n := by
  induction l₁ generalizing n with
  | nil => simp at h
  | cons a t ih =>
    cases n with
    | zero => simp
    | succ n' => simpa using ih n' (Nat.lt_of_succ_lt_succ h)

theorem get?_pred_length_eq_getLast? (l : Str) (h : l ≠ []) :
    l.get? (l.length - 1) = l.getLast? := by
  induction l with
  | nil => exact absurd rfl h
  | cons a t ih =>
    cases t with
    | nil => simp
    | cons b t' =>
      have : (a :: b :: t').get? ((a :: b :: t').length - 1) = (b :: t').get? ((b :: t').length - 1) := by
        simp
      rw [this, ih (by simp), List.getLast?_cons_cons]

theorem dropLast_eq_take_pred (l : Str) : l.dropLast = l.take (l.length - 1) := by
  induction l with
  | nil => simp
  | cons a t ih =>
    cases t with
    | nil => simp
    | cons b t' =>
      simp only [List.dropLast_cons₂, List.length_cons]
      rw [ih]
      simp

/-! ## Helper lemmas about the parsing functions -/

theorem strFindChar_dbMarker (pre rest : Str) (hq : '?' ∉ pre) :
    strFindChar '?' (pre ++ dbMarker ++ rest) = some pre.length := by
  have hmark : dbMarker = '?' :: str "db=" := by decide
  rw [hmark, List.append_assoc]
  show strFindChar '?' (pre ++ '?' :: (str "db=" ++ rest)) = some pre.length
  exact strFindChar_append_cons '?' pre (str "db=" ++ rest) hq

theorem strFindSub_dbMarker (pre rest : Str) (hq : '?' ∉ pre) :
    strFindSub dbMarker (pre ++ dbMarker ++ rest) = some pre.length := by
  have hmark : dbMarker = '?' :: str "db=" := by decide
  rw [hmark]
  exact strFindSub_append_cons '?' (str "db=") pre rest hq

theorem drop_dbMarker (pre name : Str) :
    (pre ++ dbMarker ++ name).drop (pre.length + 4) = name := by
  have hm4 : dbMarker.length = 4 := by decide
  have h4 : pre.length + 4 = (pre ++ dbMarker).length := by
    rw [List.length_append, hm4]
  rw [h4]
  exact drop_length_append _ _

theorem parseDatabaseName_append (pre name : Str) (hq : '?' ∉ pre) :
    parseDatabaseName (pre ++ dbMarker ++ name) = .ok name := by
  simp only [parseDatabaseName, strFindSub_dbMarker pre name hq]
  rw [drop_dbMarker]

theorem parseUrl_append (pre rest : Str) (hq : '?' ∉ pre) (hne : pre ≠ []) :
    parseUrl (pre ++ dbMarker ++ rest)
      = .ok (if pre.getLast? = some '/' then pre.dropLast else pre) := by
  have hlen : pre.length ≠ 0 := fun h0 => hne (List.length_eq_zero.mp h0)
  have hlt : pre.length - 1 < pre.length := Nat.sub_lt (Nat.pos_of_ne_zero hlen) Nat.one_pos
  have hassoc : pre ++ dbMarker ++ rest = pre ++ (dbMarker ++ rest) := List.append_assoc _ _ _
  have hget : (pre ++ dbMarker ++ rest).get? (pre.length - 1) = pre.getLast? := by
    rw [hassoc, get?_append_of_lt pre (dbMarker ++ rest) (pre.length - 1) hlt,
        get?_pred_length_eq_getLast? pre hne]
  simp only [parseUrl, strFindChar_dbMarker pre rest hq]
  rw [if_neg hlen, hget]
  by_cases hsl : pre.getLast? = some '/'
  · rw [if_pos hsl, if_pos hsl, hassoc,
        take_append_of_le pre (dbMarker ++ rest) (pre.length - 1) (Nat.le_of_lt hlt),
        ← dropLast_eq_take_pred]
  · rw [if_neg hsl, if_neg hsl, hassoc,
        take_append_of_le pre (dbMarker ++ rest) pre.length (Nat.le_refl _),
        List.take_length]

theorem parseUrl_ok_of_head (url : Str) (h : url.head? ≠ some '?') :
    ∃ b, parseUrl url = .ok b := by
  cases hf : strFindChar '?' url with
  | none =>
    exact ⟨url, by simp only [parseUrl, hf]⟩
  | some q =>
    have hq : ¬(q = 0) := by
      intro h0
      rw [h0] at hf
      exact h (strFindChar_zero_head '?' url hf)
    by_cases hg : url.get? (q - 1) = some '/'
    · exact ⟨url.take (q - 1), by simp only [parseUrl, hf]; rw [if_neg hq, if_pos hg]⟩
    · exact ⟨url.take q, by simp only [parseUrl, hf]; rw [if_neg hq, if_neg hg]⟩

theorem parseUrl_ok_no_qmark (url b : Str) (h : parseUrl url = .ok b) : '?' ∉ b := by
  cases hf : strFindChar '?' url with
  | none =>
    simp only [parseUrl, hf] at h
    cases h
    exact (strFindChar_eq_none_iff '?' url).mp hf
  | some q =>
    simp only [parseUrl, hf] at h
    by_cases hq : q = 0
    · rw [if_pos hq] at h
      cases h
    · rw [if_neg hq] at h
      by_cases hg : url.get? (q - 1) = some '/'
      · rw [if_pos hg] at h
        cases h
        exact not_mem_take_of_strFindChar '?' url q (q - 1) hf (Nat.sub_le q 1)
      · rw [if_neg hg] at h
        cases h
        exact not_mem_take_of_strFindChar '?' url q q hf (Nat.le_refl q)

/-! ## Helper lemmas about the async queue and reaper -/

theorem catchInflux_checkResponse (resp : Response) :
    catchInflux (checkResponse resp) = .ok () := by
  by_cases h1 : resp.hasError
  · simp [checkResponse, h1, catchInflux]
  · by_cases h2 : is_success resp.status_code
    · simp [checkResponse, h1, h2, catchInflux]
    · simp [checkResponse, h1, h2, catchInflux]

theorem drainAll_map_fst (result : PendingWrite → Response) (q : List PendingWrite) :
    (drainAll result q).map Prod.fst = q := by
  induction q with
  | nil => rfl
  | cons w rest ih => simp [drainAll, ih]

theorem handleAsyncBatch_ok (result : PendingWrite → Response) (q : List PendingWrite) :
    handleAsyncBatch result q = .ok (drainAll result q) := by
  induction q with
  | nil => rfl
  | cons w rest ih =>
    simp [handleAsyncBatch, catchInflux_checkResponse, ih, drainAll]

theorem runEvents_append (result : PendingWrite → Response) (st : AsyncState)
    (l₁ l₂ : List AsyncEvent) :
    runEvents result st (l₁ ++ l₂) = runEvents result (runEvents result st l₁) l₂ := by
  induction l₁ generalizing st with
  | nil => rfl
  | cons e es ih => simp [runEvents, ih]

theorem submittedOf_append (l₁ l₂ : List AsyncEvent) :
    submittedOf (l₁ ++ l₂) = submittedOf l₁ ++ submittedOf l₂ := by
  induction l₁ with
  | nil => rfl
  | cons e es ih => cases e <;> simp [submittedOf, ih]

theorem runEvents_order_invariant (result : PendingWrite → Response)
    (evs : List AsyncEvent) (st : AsyncState) :
    ((runEvents result st evs).resolved).map Prod.fst ++ (runEvents result st evs).queue
      = st.resolved.map Prod.fst ++ st.queue ++ submittedOf evs := by
  induction evs generalizing st with
  | nil => simp [runEvents, submittedOf]
  | cons e es ih =>
    cases e with
    | submit w =>
      have h1 := ih { st with queue := pushWrite st.queue w }
      simp only [runEvents, stepEvent]
      rw [h1]
      simp [pushWrite, submittedOf, List.append_assoc]
    | reap =>
      have h2 := ih { queue := [], resolved := st.resolved ++ drainAll result st.queue }
      simp only [runEvents, stepEvent]
      rw [h2]
      simp [drainAll_map_fst, submittedOf, List.append_assoc]

/-! ## Claims -/

/-- C1: writes submitted via `sendAsync` are resolved by the reaper in
submission order.  For every serialized history of `sendAsync` appends and
reaper wake-ups, and for every behaviour of the network (the `result`
oracle, covering arbitrary per-write latencies and outcomes), the sequence
of writes the reaper resolves — after a final drain — is exactly the
sequence submitted, in order: appends go to the tail, the reaper always
removes from the front. -/
theorem async_writes_resolved_fifo (result : PendingWrite → Response)
    (evs : List AsyncEvent) :
    ((runEvents result { queue := [], resolved := [] } (evs ++ [AsyncEvent.reap])).resolved).map Prod.fst
      = submittedOf evs := by
  have hinv := runEvents_order_invariant result (evs ++ [AsyncEvent.reap])
    { queue := [], resolved := [] }
  have hq : (runEvents result { queue := [], resolved := [] } (evs ++ [AsyncEvent.reap])).queue
      = [] := by
    rw [runEvents_append]
    rfl
  rw [hq] at hinv
  simpa [submittedOf_append, submittedOf] using hinv

/-- C2 (code bug, evaluated at the failing input): the two-argument
constructor `HTTP::HTTP(url, enableAsync)` starts the result-handler thread
even when `enableAsync = false`, and in that case `HTTP::~HTTP` never joins
it, so the `std::thread` member is destroyed while joinable, which calls
`std::terminate`; with `enableAsync = true` the destructor joins and no
termination occurs. -/
theorem sync_mode_still_starts_thread :
    (constructWithAsyncFlag false).handlerThread.started = true ∧
    (destructHTTP (constructWithAsyncFlag false)).2 = true ∧
    (destructHTTP (constructWithAsyncFlag true)).2 = false := by decide

/-- C3 counterexample: the input `"?db=x"` contains the `?db=` marker, yet
construction does not return an `EndpointConfig` — `parseUrl` evaluates
`url.at(0 - 1)` and throws `std::out_of_range`, an error other than the
`ConfigurationError`, refuting both the "fails only if no `?db=`" and the
"every string containing `?db=` parses" parts of the claim. -/
theorem parse_total_cex :
    parseEndpoint (str "?db=x") = .err .outOfRange ∧
    (strFindSub dbMarker (str "?db=x")).isSome = true := by decide

/-- C3 (amended): for every input whose first character is not `?` (so the
`url.at(pos - 1)` access in `parseUrl` is in bounds), parsing fails if and
only if the string contains no `?db=` marker, and that failure is exactly
`InfluxDBException("No Database specified")`; with `?db=` present parsing
returns an `EndpointConfig`. -/
theorem parse_total_unless_leading_qmark (url : Str) (h : url.head? ≠ some '?') :
    (strFindSub dbMarker url = none →
      parseEndpoint url = .err (.influxDB (str "No Database specified"))) ∧
    (∀ p, strFindSub dbMarker url = some p → ∃ cfg, parseEndpoint url = .ok cfg) := by
  obtain ⟨b, hb⟩ := parseUrl_ok_of_head url h
  constructor
  · intro hnone
    simp only [parseEndpoint, hb, parseDatabaseName, hnone]
  · intro p hp
    exact ⟨{ baseUrl := b, database := url.drop (p + 4) },
      by simp only [parseEndpoint, hb, parseDatabaseName, hp]⟩

/-- C3 witness: both branches of the amended claim at concrete inputs. -/
theorem parse_total_unless_leading_qmark_witness :
    parseEndpoint (str "http://h") = .err (.influxDB (str "No Database specified")) ∧
    (∃ cfg, parseEndpoint (str "http://h?db=x") = .ok cfg) :=
  ⟨(parse_total_unless_leading_qmark (str "http://h") (by decide)).1 (by decide),
   (parse_total_unless_leading_qmark (str "http://h?db=x") (by decide)).2 8 (by decide)⟩

/-- C4: for every URL of the form `prefix ++ "?db=" ++ NAME` with a
non-empty, `?`-free prefix (the shape `scheme://host/path?db=NAME`),
parsing yields base URL = the prefix with one trailing `/` stripped if
present, and database = `NAME`. -/
theorem parse_wellformed_url (pre name : Str) (hq : '?' ∉ pre) (hne : pre ≠ []) :
    parseEndpoint (pre ++ dbMarker ++ name) =
      .ok { baseUrl := if pre.getLast? = some '/' then pre.dropLast else pre,
            database := name } := by
  simp only [parseEndpoint, parseUrl_append pre name hq hne,
    parseDatabaseName_append pre name hq]

/-- C4 witness: the two examples from the claim —
`http://localhost:8086/?db=mydb` and `http://localhost:8086?db=mydb` both
yield base `http://localhost:8086` and database `mydb`. -/
theorem parse_wellformed_url_witness :
    parseEndpoint (str "http://localhost:8086/?db=mydb")
      = .ok { baseUrl := str "http://localhost:8086", database := str "mydb" } ∧
    parseEndpoint (str "http://localhost:8086?db=mydb")
      = .ok { baseUrl := str "http://localhost:8086", database := str "mydb" } := by
  have h1 := parse_wellformed_url (str "http://localhost:8086/") (str "mydb")
    (by decide) (by decide)
  have h2 := parse_wellformed_url (str "http://localhost:8086") (str "mydb")
    (by decide) (by decide)
  refine ⟨?_, ?_⟩
  · have e1 : str "http://localhost:8086/?db=mydb"
        = str "http://localhost:8086/" ++ dbMarker ++ str "mydb" := by decide
    rw [e1, h1]
    decide
  · have e2 : str "http://localhost:8086?db=mydb"
        = str "http://localhost:8086" ++ dbMarker ++ str "mydb" := by decide
    rw [e2, h2]
    decide

/-- C5: for every synchronous request, a response with no transport-level
error and a non-2xx status makes `query`/`execute`/`send`/`createDatabase`
raise the `InfluxDBException` whose message embeds the numeric status code
and its reason text (`requestFailedMsg`); a 2xx response makes `send`
return without error having issued exactly one POST to the write path with
the `db=<database>` parameter and the payload as body. -/
theorem sync_ops_status_classification (st : HTTPState) (resp : Response)
    (q cmd lp : Str)
    (he : resp.hasError = false) (hs : is_success resp.status_code = false) :
    ((query st (fun _ => resp) q).1 = .err (.influxDB (requestFailedMsg resp)) ∧
     (executeCmd st (fun _ => resp) cmd).1 = .err (.influxDB (requestFailedMsg resp)) ∧
     (send st (fun _ => resp) lp).1 = .err (.influxDB (requestFailedMsg resp)) ∧
     (createDatabase st (fun _ => resp)).1 = .err (.influxDB (requestFailedMsg resp))) ∧
    (∀ resp2 : Response, resp2.hasError = false → is_success resp2.status_code = true →
      (send st (fun _ => resp2) lp).1 = .ok () ∧
      (send st (fun _ => resp2) lp).2.2 =
        [{ method := Method.post,
           url := st.endpointUrl ++ str "/write",
           headers := [(str "Content-Type", str "application/json")],
           params := [(str "db", st.databaseName)],
           body := lp }]) := by
  have hchk : checkResponse resp = .err (.influxDB (requestFailedMsg resp)) := by
    simp [checkResponse, he, hs]
  refine ⟨⟨?_, ?_, ?_, ?_⟩, ?_⟩
  · simp [query, hchk]
  · simp [executeCmd, hchk]
  · simp [send, hchk]
  · simp [createDatabase, hchk]
  · intro resp2 he2 hs2
    have hchk2 : checkResponse resp2 = .ok () := by
      simp [checkResponse, he2, hs2]
    exact ⟨by simp [send, hchk2], by simp [send, sendSession, Session.toRequest]⟩

/-- C5 witness: a mock returning status 500 makes `send` raise the error
message carrying 500 and the reason; a 204 mock makes `send` succeed. -/
theorem sync_ops_status_classification_witness :
    (send st0 (fun _ => resp500) (str "k v=1")).1
      = .err (.influxDB (str "Request failed: (500) Internal Server Error")) ∧
    (send st0 (fun _ => resp204) (str "k v=1")).1 = .ok () := by
  have h := sync_ops_status_classification st0 resp500 (str "q") (str "c") (str "k v=1")
    (by decide) (by decide)
  refine ⟨?_, (h.2 resp204 (by decide) (by decide)).1⟩
  rw [h.1.2.2.1]
  decide

/-- C6: an individual asynchronous write failure never escapes
`handleAsyncResult` and never aborts the drain loop: for every queue and
every network behaviour, the inner loop completes normally (`.ok`, no
exception propagates — the `catch` swallows every `InfluxDBException` that
`checkResponse` can throw), having dequeued and resolved every element in
order, with failures discarded. -/
theorem async_failures_swallowed (result : PendingWrite → Response)
    (q : List PendingWrite) :
    handleAsyncBatch result q = .ok (drainAll result q) ∧
    (drainAll result q).map Prod.fst = q :=
  ⟨handleAsyncBatch_ok result q, drainAll_map_fst result q⟩

/-- C7 counterexample: the request executor is not stateless across calls —
after a `send`, the request built by `query` still carries the `send`'s
body (and Content-Type header) because the shared `cpr::Session` retains
`SetBody`/`SetHeader` state, so the request built by the second operation
depends on which operation ran before it. -/
theorem executor_state_leak_cex :
    Session.toRequest (querySession (send st0 (fun _ => resp204) (str "k v=1")).2.1 (str "show")) Method.get
      ≠ Session.toRequest (querySession st0 (str "show")) Method.get ∧
    (Session.toRequest (querySession (send st0 (fun _ => resp204) (str "k v=1")).2.1 (str "show")) Method.get).body
      = str "k v=1" ∧
    (Session.toRequest (querySession st0 (str "show")) Method.get).body = [] := by
  refine ⟨?_, by decide, by decide⟩
  decide

/-- C7 (amended): the URL and parameters of every request — and for `send`
also its headers and body — depend only on the operation's own arguments
and the shared endpoint configuration, not on the prior session state; but
the headers and body that `send`/`sendAsync` leave on the shared session do
persist into later `query`/`execute`/`createDatabase` requests. -/
theorem request_url_params_own_args_only (e d : Str) (s1 s2 : Session)
    (q cmd lp : Str) :
    (querySession (HTTPState.mk e d s1) q).url = (querySession (HTTPState.mk e d s2) q).url ∧
    (querySession (HTTPState.mk e d s1) q).params = (querySession (HTTPState.mk e d s2) q).params ∧
    (executeSession (HTTPState.mk e d s1) cmd).url = (executeSession (HTTPState.mk e d s2) cmd).url ∧
    (executeSession (HTTPState.mk e d s1) cmd).params = (executeSession (HTTPState.mk e d s2) cmd).params ∧
    (sendSession (HTTPState.mk e d s1) lp).url = (sendSession (HTTPState.mk e d s2) lp).url ∧
    (sendSession (HTTPState.mk e d s1) lp).params = (sendSession (HTTPState.mk e d s2) lp).params ∧
    (sendSession (HTTPState.mk e d s1) lp).headers = (sendSession (HTTPState.mk e d s2) lp).headers ∧
    (sendSession (HTTPState.mk e d s1) lp).body = (sendSession (HTTPState.mk e d s2) lp).body ∧
    (createDatabaseSession (HTTPState.mk e d s1)).url = (createDatabaseSession (HTTPState.mk e d s2)).url ∧
    (createDatabaseSession (HTTPState.mk e d s1)).params = (createDatabaseSession (HTTPState.mk e d s2)).params :=
  ⟨rfl, rfl, rfl, rfl, rfl, rfl, rfl, rfl, rfl, rfl⟩

/-- C8 counterexample: parsing `"http://host?db="` succeeds with an empty
database name, refuting the invariant that the database of every
successfully constructed transport is non-empty. -/
theorem database_nonempty_cex :
    parseEndpoint (str "http://host?db=") =
      .ok { baseUrl := str "http://host", database := [] } := by decide

/-- C8 (amended): for every successfully constructed transport the base URL
contains no `?` at all — hence no trailing query string and no trailing
slash immediately before a query string; the database name is the possibly
empty remainder after the first `?db=`. -/
theorem constructed_baseUrl_has_no_query (url : Str) (cfg : EndpointConfig)
    (h : parseEndpoint url = .ok cfg) : '?' ∉ cfg.baseUrl := by
  cases hu : parseUrl url with
  | err e =>
    simp only [parseEndpoint, hu] at h
    cases h
  | ok b =>
    simp only [parseEndpoint, hu] at h
    cases hd : parseDatabaseName url with
    | err e =>
      rw [hd] at h
      cases h
    | ok d =>
      rw [hd] at h
      cases h
      exact parseUrl_ok_no_qmark url b hu

/-- C8 witness: the amended invariant at a concrete constructed config. -/
theorem constructed_baseUrl_has_no_query_witness :
    '?' ∉ (EndpointConfig.mk (str "http://host") (str "x")).baseUrl :=
  constructed_baseUrl_has_no_query (str "http://host?db=x") _ (by decide)

/-- C9: the extracted database name is the entire remainder of the
connection string after the first `?db=` — later query parameters are not
stripped; in particular `http://host?db=mydb&u=x` yields `mydb&u=x`. -/
theorem database_is_rest_after_marker (pre name : Str) (hq : '?' ∉ pre) :
    parseDatabaseName (pre ++ dbMarker ++ name) = .ok name ∧
    parseDatabaseName (str "http://host?db=mydb&u=x") = .ok (str "mydb&u=x") :=
  ⟨parseDatabaseName_append pre name hq, by decide⟩

/-- C9 witness: the general statement instantiated at the claim's example. -/
theorem database_is_rest_after_marker_witness :
    parseDatabaseName (str "http://host" ++ dbMarker ++ str "mydb&u=x")
      = .ok (str "mydb&u=x") :=
  (database_is_rest_after_marker (str "http://host") (str "mydb&u=x") (by decide)).1

/-- C10: every successfully constructed transport has a session with a 10 s
request timeout, a 10 s connect timeout and TLS verification disabled, and
no public operation (`query`, `execute`, `send`, `sendAsync`,
`createDatabase`, `setBasicAuthentication`, `setProxy`) changes any of the
three. -/
theorem session_timeouts_fixed (url : Str) (st : HTTPState)
    (h : constructHTTP url = .ok st) :
    sessionCfg st.session = (10, 10, false) ∧
    ∀ (st' : HTTPState) (client : Client) (q cmd lp user pass : Str) (p : Proxy),
      sessionCfg (query st' client q).2.1.session = sessionCfg st'.session ∧
      sessionCfg (executeCmd st' client cmd).2.1.session = sessionCfg st'.session ∧
      sessionCfg (send st' client lp).2.1.session = sessionCfg st'.session ∧
      sessionCfg (sendAsyncSession st' lp) = sessionCfg st'.session ∧
      sessionCfg (createDatabase st' client).2.1.session = sessionCfg st'.session ∧
      sessionCfg (setBasicAuthentication st' user pass).session = sessionCfg st'.session ∧
      sessionCfg (setProxy st' p).session = sessionCfg st'.session := by
  constructor
  · cases hp : parseEndpoint url with
    | err e =>
      simp only [constructHTTP, hp] at h
      cases h
    | ok cfg =>
      simp only [constructHTTP, hp] at h
      cases h
      rfl
  · intro st' client q cmd lp user pass p
    obtain ⟨purl, pauth⟩ := p
    cases pauth <;> exact ⟨rfl, rfl, rfl, rfl, rfl, rfl, rfl⟩

/-- C10 witness: the fixed configuration at a concrete constructed state. -/
theorem session_timeouts_fixed_witness :
    sessionCfg (HTTPState.mk (str "http://h") (str "x") initSession).session
      = (10, 10, false) :=
  (session_timeouts_fixed (str "http://h?db=x") _ (by decide)).1
